import Mathlib

/-!
# EHR Connector Framework — shallow embedding

A shallow embedding of the EHR integration core of the repository
(`EhrConnector`, `EpicConnector`, `CernerConnector`): the token lifecycle
state machine, the request/response interception pipeline, the vendor
authentication variants, and the write-side defaulting helpers.

Timestamps are modelled as integers (milliseconds, as in `Date.now()`).
HTTP effects are modelled by passing the vendor's answer in as an oracle
argument (`Except`-valued for fallible calls), and the connector methods
become state transformers over `TokenState`.
-/

namespace Ehr

/-- The token response body returned by a vendor token endpoint:
`{access_token, refresh_token?, expires_in}` (seconds). -/
structure TokenResponse where
  access_token : String
  refresh_token : Option String
  expires_in : Int
deriving Repr, DecidableEq

/-- The mutable token fields of `EhrConnector`:
`this.accessToken`, `this.refreshToken`, `this.tokenExpiry`.
All three start out `null` in the constructor. -/
structure TokenState where
  accessToken : Option String
  refreshToken : Option String
  tokenExpiry : Option Int
deriving Repr, DecidableEq

/-- The constructor's initial token fields (all `null`). -/
def initialTokenState : TokenState := ⟨none, none, none⟩

/-- The state written by the `catch` branch of `refreshAccessToken`:
all three token fields set to `null`. -/
def clearedTokenState : TokenState := ⟨none, none, none⟩

/-- `EhrConnector.isTokenExpired`: true when either token field is unset,
otherwise `Date.now() >= tokenExpiry - bufferTime` with a 60 s buffer. -/
def isTokenExpired (s : TokenState) (now : Int) : Bool :=
  match s.accessToken, s.tokenExpiry with
  | some _, some expiry => decide (now ≥ expiry - 60 * 1000)
  | _, _ => true

/-- The `TokenState` well-formedness invariant from the data model:
an access token never exists without a known expiry. -/
def TokenInvariant (s : TokenState) : Prop :=
  s.accessToken.isSome → s.tokenExpiry.isSome

instance (s : TokenState) : Decidable (TokenInvariant s) := by
  unfold TokenInvariant; infer_instance

/-- `EhrConnector.refreshAccessToken`, as a state transformer. The refresh
grant HTTP call is passed in as the oracle `refreshHttp`; the subclass
`authenticate` method is the function argument `auth` (a state transformer
that, on failure, throws leaving the state it was given unchanged). With no
stored refresh token the method calls `authenticate` directly (and a failure
there lands in the same `catch`); the `catch` branch clears all three token
fields and performs one full `authenticate` before surfacing anything. -/
def refreshAccessToken (s : TokenState) (now : Int)
    (refreshHttp : Except String TokenResponse)
    (auth : TokenState → Except String TokenState) : Except String TokenState :=
  match s.refreshToken with
  | none =>
    match auth s with
    | .ok s2 => .ok s2
    | .error _ => auth clearedTokenState
  | some rt =>
    match refreshHttp with
    | .ok r =>
        .ok { accessToken := some r.access_token
            , refreshToken := some (r.refresh_token.getD rt)
            , tokenExpiry := some (now + r.expires_in * 1000) }
    | .error _ => auth clearedTokenState

/-- `CernerConnector.authenticate`, as a state transformer: on a successful
grant it writes `accessToken` and `tokenExpiry` (it does not touch
`refreshToken`); on failure it rethrows, leaving the token state unchanged. -/
def cernerAuthenticate (grant : Except String TokenResponse) (now : Int)
    (s : TokenState) : Except String TokenState :=
  match grant with
  | .ok r => .ok { s with
      accessToken := some r.access_token
      tokenExpiry := some (now + r.expires_in * 1000) }
  | .error e => .error ("Cerner authentication failed: " ++ e)

/-- A FHIR extension node as traversed by `EpicConnector.authenticate` and
appended by the write-side defaulting helpers: a url, optional
`valueUri`/`valueString` payloads, and nested extensions. -/
inductive Ext where
  | mk (url : String) (valueUri : Option String) (valueString : Option String)
      (nested : List Ext)
deriving Repr

/-- The `url` field of an extension node. -/
def Ext.url : Ext → String
  | .mk u _ _ _ => u

/-- The `valueUri` field of an extension node. -/
def Ext.valueUri : Ext → Option String
  | .mk _ v _ _ => v

/-- The `valueString` field of an extension node. -/
def Ext.valueString : Ext → Option String
  | .mk _ _ v _ => v

/-- The nested `extension` list of an extension node. -/
def Ext.nested : Ext → List Ext
  | .mk _ _ _ n => n

/-- The capability-metadata fields Epic's `authenticate` reads:
`rest[0].security.extension`. -/
structure EpicMetadata where
  securityExtension : List Ext

/-- The SMART oauth-uris extension url `EpicConnector.authenticate`
searches the security extensions for. -/
def oauthUrisUrl : String :=
  "http://fhir-registry.smarthealthit.org/StructureDefinition/oauth-uris"

/-- The token-endpoint extraction of `EpicConnector.authenticate`:
`security.extension.find(url = oauth-uris)?.extension.find(url = 'token')?.valueUri`. -/
def findTokenUrl (exts : List Ext) : Option String :=
  match exts.find? (fun e => e.url == oauthUrisUrl) with
  | none => none
  | some e =>
    match e.nested.find? (fun x => x.url == "token") with
    | none => none
    | some t => t.valueUri

/-- The outbound HTTP calls `EpicConnector.authenticate` can make. -/
inductive EpicCall where
  | metadataFetch
  | tokenGrant
deriving Repr, DecidableEq

/-- The distinct failure sites of `EpicConnector.authenticate`. The
`configurationError` constructor is the
`'Unable to determine Epic token endpoint from capability statement'` throw. -/
inductive EpicAuthError where
  | fetchFailed (msg : String)
  | configurationError
  | grantFailed (msg : String)
deriving Repr, DecidableEq

/-- The grant half of `EpicConnector.authenticate`, once metadata is in
hand: extract the token endpoint, throw the configuration error (making no
token call) when it is absent, otherwise perform the client-credentials
grant and on success write all three token fields. -/
def epicGrantStep (md : EpicMetadata) (grant : Except String TokenResponse)
    (_s : TokenState) (now : Int) :
    Except EpicAuthError (TokenState × EpicMetadata) × List EpicCall :=
  match findTokenUrl md.securityExtension with
  | none => (.error .configurationError, [])
  | some _ =>
    match grant with
    | .error e => (.error (.grantFailed e), [.tokenGrant])
    | .ok r =>
      (.ok ({ accessToken := some r.access_token
            , refreshToken := r.refresh_token
            , tokenExpiry := some (now + r.expires_in * 1000) }, md),
       [.tokenGrant])

/-- `EpicConnector.authenticate`, as a state transformer that also reports
the outbound HTTP calls it made, in order. `cached` is `this.epicMetadata`;
when unset the capability statement is fetched first (the `fetch` oracle).
On any failure the token state is left unchanged. -/
def epicAuthenticate (cached : Option EpicMetadata)
    (fetch : Except String EpicMetadata)
    (grant : Except String TokenResponse)
    (s : TokenState) (now : Int) :
    Except EpicAuthError (TokenState × EpicMetadata) × List EpicCall :=
  match cached with
  | some md => epicGrantStep md grant s now
  | none =>
    match fetch with
    | .error e => (.error (.fetchFailed e), [.metadataFetch])
    | .ok md =>
      let step := epicGrantStep md grant s now
      (step.1, .metadataFetch :: step.2)

/-- The vendor's behaviour for one logical FHIR operation: the HTTP status
of the nth send of the request, and whether the kth in-pipeline
`refreshAccessToken` succeeds. -/
structure VendorOracle where
  status : Nat → Nat
  refreshOk : Nat → Bool

/-- axios resolves a response iff its status passes the default
`validateStatus` range 200–299; anything else enters the response
interceptor's error branch. -/
def isSuccessStatus (st : Nat) : Bool := 200 ≤ st && st < 300

/-- Outcome of one logical operation through the response interceptor. -/
inductive PipelineResult where
  | ok (status : Nat)
  | err (status : Nat)
  | authErr
deriving Repr, DecidableEq

/-- The response interceptor's error branch once `config._retry` is already
set: `status === 401 && !error.config._retry` is now false, so every
non-2xx response — a second 401 included — is rejected as the standardized
error. Returns the result and the total number of sends. -/
def dispatchRetried (o : VendorOracle) (i : Nat) : PipelineResult × Nat :=
  let st := o.status i
  if isSuccessStatus st then (.ok st, i + 1) else (.err st, i + 1)

/-- One logical operation through `httpClient`: the first send enters the
response interceptor; on a 401 with `config._retry` unset the interceptor
sets the flag, awaits `refreshAccessToken`, and re-issues the request
(which lands in `dispatchRetried` because `_retry` is now set on the
config); a rejecting refresh propagates without re-issuing; any other
error status is rejected as the standardized error. -/
def runRequest (o : VendorOracle) : PipelineResult × Nat :=
  let st := o.status 0
  if isSuccessStatus st then (.ok st, 1)
  else if st = 401 then
    if o.refreshOk 0 then dispatchRetried o 1
    else (.authErr, 1)
  else (.err st, 1)

/-- The two externally visible actions of one outbound call through the
request interceptor: a token attempt (entering `refreshAccessToken`) and
the HTTP send of the FHIR request itself. -/
inductive PipeEvent where
  | authAttempt
  | httpSend
deriving Repr, DecidableEq

/-- The request interceptor (`httpClient.interceptors.request.use`): when
`isTokenExpired` holds it awaits `refreshAccessToken` before the request
goes out; a rejection there rejects the whole request, which is then never
sent. Returns the ordered trace of events with the resulting token state. -/
def requestInterceptorRun (s : TokenState) (now : Int)
    (refreshHttp : Except String TokenResponse)
    (auth : TokenState → Except String TokenState) :
    List PipeEvent × Except String TokenState :=
  if isTokenExpired s now then
    match refreshAccessToken s now refreshHttp auth with
    | .ok s2 => ([.authAttempt, .httpSend], .ok s2)
    | .error e => ([.authAttempt], .error e)
  else ([.httpSend], .ok s)

/-- One audit record as produced by the `AuditService.logFhirActivity`
calls in the FHIR verbs: the event type, the success flag, and the request
id it is tagged with. -/
structure AuditRecord where
  eventType : String
  success : Bool
  requestId : String
deriving Repr, DecidableEq

/-- The standardized error the response interceptor rejects with; it
carries the interceptor-level request id (`config.requestId`). -/
structure HttpError where
  requestId : String
  message : String
deriving Repr, DecidableEq

/-- `EhrConnector.search` (representative of all five FHIR verbs, which
share this shape): when HIPAA auditing is enabled it first logs a
`FHIR_READ` record with `success: true` tagged with the freshly generated
uuid request id, then performs the HTTP call; on failure the `catch` logs a
second record with `success: false` tagged with the error's request id and
rethrows. Returns the records emitted, in order, with the outcome. -/
def searchOp (auditEnabled : Bool) (uuid : String)
    (httpResult : Except HttpError String) :
    List AuditRecord × Except HttpError String :=
  let pre := if auditEnabled then [⟨"FHIR_READ", true, uuid⟩] else []
  match httpResult with
  | .ok body => (pre, .ok body)
  | .error e =>
    (pre ++ (if auditEnabled then [⟨"FHIR_READ", false, e.requestId⟩] else []),
     .error e)

/-- A caller's position in the interleaved expiry-check/refresh sequence.
JS `async` functions interleave at `await` points: the expiry check plus
the start of the refresh HTTP call form one atomic segment (no `await`
between `isTokenExpired()` and the `axios.post` inside
`refreshAccessToken`), and the processing of the token response another. -/
inductive CallerPhase where
  | idle
  | awaitingToken
  | done
deriving Repr, DecidableEq

/-- Shared connector state for two concurrent callers entering the request
interceptor, plus the count of token-endpoint HTTP calls issued. -/
structure ConcState where
  token : TokenState
  phase0 : CallerPhase
  phase1 : CallerPhase
  tokenCalls : Nat
deriving Repr, DecidableEq

/-- Atomic segments the event loop can run: `checkN` is caller N's
synchronous prefix (expiry check and, if expired, firing its own
token-endpoint call before suspending at the `await`); `completeN` is the
arrival of caller N's token response and the token-field update. -/
inductive ConcAction where
  | check0
  | check1
  | complete0
  | complete1
deriving Repr, DecidableEq

/-- The token fields written when a token response is processed. -/
def tokenFromResponse (resp : TokenResponse) (now : Int) : TokenState :=
  ⟨some resp.access_token, resp.refresh_token, some (now + resp.expires_in * 1000)⟩

/-- One atomic segment of the two-caller interleaving over the shared
connector. There is no lock or in-flight-refresh handle anywhere in the
source: each caller that sees `isTokenExpired()` true fires its own
refresh. -/
def applyAction (now : Int) (resp : TokenResponse) (st : ConcState) :
    ConcAction → ConcState
  | .check0 =>
    if st.phase0 = .idle then
      if isTokenExpired st.token now then
        { st with phase0 := .awaitingToken, tokenCalls := st.tokenCalls + 1 }
      else { st with phase0 := .done }
    else st
  | .check1 =>
    if st.phase1 = .idle then
      if isTokenExpired st.token now then
        { st with phase1 := .awaitingToken, tokenCalls := st.tokenCalls + 1 }
      else { st with phase1 := .done }
    else st
  | .complete0 =>
    if st.phase0 = .awaitingToken then
      { st with token := tokenFromResponse resp now, phase0 := .done }
    else st
  | .complete1 =>
    if st.phase1 = .awaitingToken then
      { st with token := tokenFromResponse resp now, phase1 := .done }
    else st

/-- Run a schedule of atomic segments over the shared connector state. -/
def runSchedule (now : Int) (resp : TokenResponse) (st : ConcState)
    (schedule : List ConcAction) : ConcState :=
  schedule.foldl (applyAction now resp) st

/-- A FHIR coding as written by the Cerner default category. -/
structure Coding where
  system : String
  code : String
  display : String
deriving Repr, DecidableEq

/-- One entry of an Observation `category` list. -/
structure CategoryEntry where
  coding : List Coding
deriving Repr, DecidableEq

/-- The fields of a FHIR Observation body that
`CernerConnector.createObservation` touches, plus a representative field it
never touches (`code`). -/
structure Observation where
  status : Option String
  category : Option (List CategoryEntry)
  extension : Option (List Ext)
  code : Option String

/-- The default category `createObservation` injects when none is given. -/
def defaultObservationCategory : List CategoryEntry :=
  [⟨[⟨"http://terminology.hl7.org/CodeSystem/observation-category",
      "vital-signs", "Vital Signs"⟩]⟩]

/-- The Cerner source extension `createObservation` pushes. -/
def cernerSourceExt : Ext :=
  .mk "https://fhir.cerner.com/extension/source" (some "Healthcare AI Platform")
    none []

/-- The body transform `CernerConnector.createObservation` applies before
calling `createResource`: default `status` and `category` when absent, then
unconditionally push the Cerner source extension. In the source these
assignments are performed on the caller's object itself (in place), not on
a copy. -/
def createObservationBody (o : Observation) : Observation :=
  let o1 := if o.status.isNone then { o with status := some "final" } else o
  let o2 := if o1.category.isNone then
      { o1 with category := some defaultObservationCategory } else o1
  { o2 with extension := some (o2.extension.getD [] ++ [cernerSourceExt]) }

/-- The Epic document-source extension `createDocument` pushes. -/
def epicDocumentSourceExt : Ext :=
  .mk "http://open.epic.com/FHIR/StructureDefinition/document-source" none
    (some "Healthcare AI Platform") []

/-- The fields of a DocumentReference body that
`EpicConnector.createDocument` touches, plus a representative field it
never touches (`status`). -/
structure DocumentReference where
  content : Option (List String)
  extension : Option (List Ext)
  status : Option String

/-- The guard and body transform of `EpicConnector.createDocument`: missing
or empty content is rejected before anything else; otherwise the Epic
source extension is pushed (in the source, again onto the caller's object
in place) and the body is handed to `createResource`. -/
def createDocumentBody (d : DocumentReference) : Except String DocumentReference :=
  if (d.content.getD []).isEmpty then .error "Document content is required"
  else .ok { d with
    extension := some (d.extension.getD [] ++ [epicDocumentSourceExt]) }

/-- One entry of `this.capabilities` as built by
`EpicConnector.fetchCapabilityStatement`: a resource type with its
interaction codes. -/
structure Capability where
  type : String
  interactions : List String
deriving Repr, DecidableEq

/-- `EpicConnector.isSupported`: before the capability statement is loaded
(`capabilities` empty) every operation is assumed supported; afterwards the
first entry whose type matches decides via its interaction codes, and an
absent type is unsupported. -/
def isSupported (caps : List Capability) (resourceType operation : String) : Bool :=
  if caps.isEmpty then true
  else
    match caps.find? (fun r => r.type == resourceType) with
    | none => false
    | some r => r.interactions.contains operation

/-- The guard at the top of `EpicConnector.getPatientData`: it throws
`Resource type ... is not supported` exactly when
`isSupported(resourceType, 'search-type')` is false. -/
def getPatientDataRejects (caps : List Capability) (resourceType : String) : Bool :=
  !(isSupported caps resourceType "search-type")

end Ehr

namespace Ehr

/-- C4: for every token state satisfying the data-model invariant
(access token set implies expiry set) and every time `now`, `isTokenExpired`
returns true iff no access token is set or `now ≥ expiresAt - 60 s`;
the boundary instant `now = expiresAt - 60 s` counts as expired. The
embedding of the check is a pure function of the state: it performs no
writes. -/
theorem isTokenExpired_spec (s : TokenState) (now : Int)
    (hinv : TokenInvariant s) :
    (isTokenExpired s now = true ↔
      s.accessToken = none ∨
        ∃ expiry, s.tokenExpiry = some expiry ∧ now ≥ expiry - 60 * 1000) ∧
    (∀ expiry, s.tokenExpiry = some expiry → now = expiry - 60 * 1000 →
      isTokenExpired s now = true) := by
  constructor
  · cases hat : s.accessToken with
    | none =>
      simp only [isTokenExpired, hat]
      cases s.tokenExpiry <;> simp
    | some t =>
      have hexp : s.tokenExpiry.isSome := hinv (by simp [hat])
      obtain ⟨expiry, hexp⟩ := Option.isSome_iff_exists.mp hexp
      simp only [isTokenExpired, hat, hexp]
      constructor
      · intro h
        exact Or.inr ⟨expiry, rfl, by exact_mod_cast of_decide_eq_true h⟩
      · rintro (h | ⟨e, he, hge⟩)
        · exact absurd h (by simp [hat])
        · obtain rfl : e = expiry := (Option.some_injective _ he).symm
          exact decide_eq_true hge
  · intro expiry hexp hnow
    cases hat : s.accessToken with
    | none => simp [isTokenExpired, hat, hexp]
    | some t =>
      simp only [isTokenExpired, hat, hexp]
      exact decide_eq_true (le_of_eq hnow.symm)

/-- Witness for C4 at a concrete state and time: a populated token judged
exactly at the buffer edge is reported expired. -/
theorem isTokenExpired_spec_witness :
    isTokenExpired ⟨some "tok", none, some 1000000⟩ 940000 = true :=
  (isTokenExpired_spec ⟨some "tok", none, some 1000000⟩ 940000 (by decide)).2
    1000000 rfl (by norm_num)

/-- C3: refresh is best-effort. With no stored refresh token,
`refreshAccessToken` degrades to a full `authenticate` rather than failing
(a successful authenticate yields success). When a refresh token is stored
and the refresh HTTP call itself fails, the outcome is exactly one full
`authenticate` performed on the fully cleared token state (access token,
refresh token and expiry all unset), so an error reaches the caller only if
that authenticate also fails. -/
theorem refreshAccessToken_best_effort (s : TokenState) (now : Int)
    (refreshHttp : Except String TokenResponse)
    (auth : TokenState → Except String TokenState) :
    (s.refreshToken = none → ∀ s2, auth s = Except.ok s2 →
      refreshAccessToken s now refreshHttp auth = Except.ok s2) ∧
    (∀ rt e, s.refreshToken = some rt → refreshHttp = Except.error e →
      refreshAccessToken s now refreshHttp auth = auth clearedTokenState) ∧
    (∀ rt e s2, s.refreshToken = some rt → refreshHttp = Except.error e →
      auth clearedTokenState = Except.ok s2 →
      refreshAccessToken s now refreshHttp auth = Except.ok s2) := by
  refine ⟨?_, ?_, ?_⟩
  · intro hrt s2 hauth
    simp [refreshAccessToken, hrt, hauth]
  · intro rt e hrt herr
    simp [refreshAccessToken, hrt, herr]
  · intro rt e s2 hrt herr hauth
    simp [refreshAccessToken, hrt, herr, hauth]

/-- Witness for C3 at concrete inputs: a stored refresh token whose refresh
grant fails, followed by an authenticate that succeeds on the cleared
state, yields that authenticate's result. -/
theorem refreshAccessToken_best_effort_witness :
    refreshAccessToken ⟨some "a", some "r", some 5⟩ 0 (Except.error "boom")
        (fun t => Except.ok { t with accessToken := some "new", tokenExpiry := some 99 })
      = Except.ok ⟨some "new", none, some 99⟩ :=
  (refreshAccessToken_best_effort ⟨some "a", some "r", some 5⟩ 0
      (Except.error "boom")
      (fun t => Except.ok { t with accessToken := some "new", tokenExpiry := some 99 })).2.2
    "r" "boom" ⟨some "new", none, some 99⟩ rfl rfl rfl

/-- C7: for the discovery-based vendor (Epic), whenever the capability
document in hand (already cached, or freshly fetched) lacks the expected
token-endpoint extension, `authenticate` fails with the configuration-error
classification and no HTTP call to any token endpoint is attempted. -/
theorem epicAuthenticate_config_error (cached : Option EpicMetadata)
    (fetch : Except String EpicMetadata) (grant : Except String TokenResponse)
    (s : TokenState) (now : Int) (md : EpicMetadata)
    (hmd : cached = some md ∨ (cached = none ∧ fetch = Except.ok md))
    (hmiss : findTokenUrl md.securityExtension = none) :
    (epicAuthenticate cached fetch grant s now).1
        = Except.error EpicAuthError.configurationError ∧
      EpicCall.tokenGrant ∉ (epicAuthenticate cached fetch grant s now).2 := by
  rcases hmd with h | ⟨h1, h2⟩
  · simp [epicAuthenticate, epicGrantStep, h, hmiss]
  · simp [epicAuthenticate, epicGrantStep, h1, h2, hmiss]

/-- Witness for C7 at a concrete input: a cached capability document with an
empty security-extension list produces the configuration error and no token
call, even though the grant oracle would have succeeded. -/
theorem epicAuthenticate_config_error_witness :
    (epicAuthenticate (some ⟨[]⟩) (Except.error "nofetch")
          (Except.ok ⟨"t", none, 3600⟩) initialTokenState 0).1
        = Except.error EpicAuthError.configurationError ∧
      EpicCall.tokenGrant ∉ (epicAuthenticate (some ⟨[]⟩) (Except.error "nofetch")
          (Except.ok ⟨"t", none, 3600⟩) initialTokenState 0).2 :=
  epicAuthenticate_config_error (some ⟨[]⟩) (Except.error "nofetch")
    (Except.ok ⟨"t", none, 3600⟩) initialTokenState 0 ⟨[]⟩ (Or.inl rfl) rfl

/-- C8: every token-state mutating operation preserves the invariant that
an access token is never stored without an expiry: the `catch`-branch
clear, Cerner `authenticate`, Epic `authenticate`, and
`refreshAccessToken` (for any subclass `authenticate` that itself preserves
the invariant) never produce a token-without-expiry state. -/
theorem tokenInvariant_preserved
    (grant : Except String TokenResponse) (now : Int) (s : TokenState)
    (cached : Option EpicMetadata) (fetch : Except String EpicMetadata)
    (refreshHttp : Except String TokenResponse)
    (auth : TokenState → Except String TokenState)
    (hauth : ∀ t t2, TokenInvariant t → auth t = Except.ok t2 → TokenInvariant t2)
    (hs : TokenInvariant s) :
    TokenInvariant clearedTokenState ∧
    (∀ s2, cernerAuthenticate grant now s = Except.ok s2 → TokenInvariant s2) ∧
    (∀ s2 md, (epicAuthenticate cached fetch grant s now).1 = Except.ok (s2, md) →
      TokenInvariant s2) ∧
    (∀ s2, refreshAccessToken s now refreshHttp auth = Except.ok s2 →
      TokenInvariant s2) := by
  have hclear : TokenInvariant clearedTokenState := by decide
  refine ⟨hclear, ?_, ?_, ?_⟩
  · intro s2 h
    cases grant with
    | ok r =>
      simp only [cernerAuthenticate, Except.ok.injEq] at h
      subst h
      intro _
      simp
    | error e => simp [cernerAuthenticate] at h
  · intro s2 md h
    have key : ∀ md0, (epicGrantStep md0 grant s now).1 = Except.ok (s2, md) →
        TokenInvariant s2 := by
      intro md0 h0
      unfold epicGrantStep at h0
      cases hfind : findTokenUrl md0.securityExtension with
      | none => simp [hfind] at h0
      | some u =>
        cases grant with
        | error e => simp [hfind] at h0
        | ok r =>
          simp only [hfind, Except.ok.injEq, Prod.mk.injEq] at h0
          obtain ⟨h1, _⟩ := h0
          subst h1
          intro _
          simp
    cases cached with
    | some md1 =>
      simp only [epicAuthenticate] at h
      exact key md1 h
    | none =>
      cases hfetch : fetch with
      | error e => simp [epicAuthenticate, hfetch] at h
      | ok md1 =>
        simp only [epicAuthenticate, hfetch] at h
        exact key md1 h
  · intro s2 h
    unfold refreshAccessToken at h
    cases hrt : s.refreshToken with
    | none =>
      simp only [hrt] at h
      cases hav : auth s with
      | ok t2 =>
        simp only [hav, Except.ok.injEq] at h
        subst h
        exact hauth s _ hs hav
      | error e =>
        simp only [hav] at h
        exact hauth clearedTokenState s2 hclear h
    | some rt =>
      simp only [hrt] at h
      cases refreshHttp with
      | ok r =>
        simp only [Except.ok.injEq] at h
        subst h
        intro _
        simp
      | error e =>
        simp only at h
        exact hauth clearedTokenState s2 hclear h

/-- Witness for C8 at a concrete input: the state Cerner `authenticate`
writes from a concrete grant satisfies the invariant. -/
theorem tokenInvariant_preserved_witness :
    TokenInvariant ⟨some "a", none, some 10000⟩ :=
  (tokenInvariant_preserved (Except.ok ⟨"a", none, 10⟩) 0 initialTokenState
      none (Except.error "e") (Except.error "e2")
      (fun _ => Except.error "x")
      (fun t t2 _ h => by cases h) (by decide)).2.1
    ⟨some "a", none, some 10000⟩ rfl

/-- C1: the at-most-once 401 retry. The pipeline never sends a request more
than twice; a first-response 401 whose forced refresh succeeds re-issues
the request exactly once; and when the retried request returns 401 again
the operation terminates as the standardized failure after exactly two
sends — a third attempt never happens. -/
theorem retry_at_most_once (o : VendorOracle) :
    (runRequest o).2 ≤ 2 ∧
    (o.status 0 = 401 → o.refreshOk 0 = true → (runRequest o).2 = 2) ∧
    (o.status 0 = 401 → o.refreshOk 0 = true → o.status 1 = 401 →
      runRequest o = (PipelineResult.err 401, 2)) := by
  refine ⟨?_, ?_, ?_⟩
  · unfold runRequest dispatchRetried
    by_cases h1 : isSuccessStatus (o.status 0) = true <;>
      by_cases h2 : o.status 0 = 401 <;>
        by_cases h3 : o.refreshOk 0 = true <;>
          by_cases h4 : isSuccessStatus (o.status 1) = true <;>
            simp [isSuccessStatus, h1, h2, h3, h4] <;> split_ifs <;> simp
  · intro h0 hr
    simp only [runRequest, dispatchRetried, h0, hr, isSuccessStatus]
    norm_num
    split_ifs <;> rfl
  · intro h0 hr h1
    simp only [runRequest, dispatchRetried, h0, h1, hr, isSuccessStatus]
    norm_num

/-- Witness for C1 at a concrete oracle: a vendor that always answers 401
yields the standardized 401 failure after exactly two sends. -/
theorem retry_at_most_once_witness :
    runRequest ⟨fun _ => 401, fun _ => true⟩ = (PipelineResult.err 401, 2) :=
  (retry_at_most_once ⟨fun _ => 401, fun _ => true⟩).2.2 rfl rfl rfl

/-- C5: authentication before use. With no stored access token, the first
event of an outbound FHIR operation is a token attempt — any send happens
only after it — and when that token attempt fails the FHIR request is never
sent. -/
theorem auth_before_first_send (s : TokenState) (now : Int)
    (refreshHttp : Except String TokenResponse)
    (auth : TokenState → Except String TokenState)
    (hs : s.accessToken = none) :
    (requestInterceptorRun s now refreshHttp auth).1.head?
        = some PipeEvent.authAttempt ∧
    (∀ e, refreshAccessToken s now refreshHttp auth = Except.error e →
      PipeEvent.httpSend ∉ (requestInterceptorRun s now refreshHttp auth).1) := by
  have hexp : isTokenExpired s now = true := by
    unfold isTokenExpired
    rw [hs]
  constructor
  · unfold requestInterceptorRun
    rw [hexp]
    cases h : refreshAccessToken s now refreshHttp auth <;> simp
  · intro e he
    unfold requestInterceptorRun
    rw [hexp, he]
    simp

/-- Witness for C5 at a concrete input: a connector with no stored token
whose authenticate fails logs the token attempt first and never sends. -/
theorem auth_before_first_send_witness :
    (requestInterceptorRun initialTokenState 0 (Except.error "x")
        (fun _ => Except.error "authfail")).1.head?
          = some PipeEvent.authAttempt ∧
    PipeEvent.httpSend ∉ (requestInterceptorRun initialTokenState 0
        (Except.error "x") (fun _ => Except.error "authfail")).1 := by
  have h := auth_before_first_send initialTokenState 0 (Except.error "x")
      (fun _ => Except.error "authfail") rfl
  exact ⟨h.1, h.2 "authfail" rfl⟩

/-- C2 counterexample: with HIPAA auditing enabled, a failing `search`
emits two audit records, not exactly one — and the first of them is marked
success even though the operation failed. -/
theorem searchOp_audit_counterexample :
    (searchOp true "uuid-1" (Except.error ⟨"ehr-Epic-3-17", "boom"⟩)).1.length ≠ 1 ∧
    (searchOp true "uuid-1" (Except.error ⟨"ehr-Epic-3-17", "boom"⟩)).1.head?
        = some ⟨"FHIR_READ", true, "uuid-1"⟩ := by
  constructor
  · decide
  · rfl

/-- C2 amended: with auditing disabled no audit record is emitted. With
auditing enabled, a successful operation emits exactly one record, marked
success and tagged with the freshly generated request id; a failed
operation emits exactly two records — a pre-flight record marked success
tagged with the fresh id, then a failure record tagged with the HTTP
error's interceptor-level request id — and the error is rethrown
unchanged. -/
theorem searchOp_audit_spec (uuid : String)
    (httpResult : Except HttpError String) :
    (searchOp false uuid httpResult).1 = [] ∧
    (∀ body, httpResult = Except.ok body →
      (searchOp true uuid httpResult).1 = [⟨"FHIR_READ", true, uuid⟩]) ∧
    (∀ e, httpResult = Except.error e →
      (searchOp true uuid httpResult).1
        = [⟨"FHIR_READ", true, uuid⟩, ⟨"FHIR_READ", false, e.requestId⟩]) ∧
    (searchOp true uuid httpResult).2 = httpResult := by
  refine ⟨?_, ?_, ?_, ?_⟩
  · cases httpResult <;> simp [searchOp]
  · rintro body rfl
    simp [searchOp]
  · rintro e rfl
    simp [searchOp]
  · cases httpResult <;> simp [searchOp]

/-- Witness for the amended C2 at a concrete input: a successful audited
search emits exactly the one success record. -/
theorem searchOp_audit_spec_witness :
    (searchOp true "u1" (Except.ok "bundle")).1 = [⟨"FHIR_READ", true, "u1"⟩] :=
  (searchOp_audit_spec "u1" (Except.ok "bundle")).2.1 "bundle" rfl

/-- C6 counterexample: two concurrent callers that both observe the expired
token before either refresh completes (schedule: both checks, then both
completions) issue two token-endpoint calls, not exactly one. -/
theorem single_flight_counterexample :
    (runSchedule 0 ⟨"t", none, 3600⟩ ⟨initialTokenState, .idle, .idle, 0⟩
        [.check0, .check1, .complete0, .complete1]).tokenCalls ≠ 1 := by
  decide

/-- C6 amended: the source has no single-flight or mutex around the refresh
path. Whenever both concurrent callers run their expiry check before either
refresh completes, each caller that observed the expired token fires its
own token-endpoint call: two callers yield exactly two token calls. -/
theorem no_single_flight (s : TokenState) (now : Int) (resp : TokenResponse)
    (hexp : isTokenExpired s now = true) :
    (runSchedule now resp ⟨s, .idle, .idle, 0⟩
        [.check0, .check1, .complete0, .complete1]).tokenCalls = 2 := by
  simp [runSchedule, applyAction, hexp]

/-- Witness for the amended C6 at a concrete input: a fresh connector
(no token stored) with two concurrent callers makes two token calls. -/
theorem no_single_flight_witness :
    (runSchedule 0 ⟨"t", none, 3600⟩ ⟨initialTokenState, .idle, .idle, 0⟩
        [.check0, .check1, .complete0, .complete1]).tokenCalls = 2 :=
  no_single_flight initialTokenState 0 ⟨"t", none, 3600⟩ rfl

/-- C9 counterexample: an observation that already carries an extension
list does not keep its fields unchanged — `createObservation` appends the
Cerner source extension to it (in the source, by mutating the caller's
object in place), so the outbound body differs from the input on the
`extension` field. -/
theorem createObservationBody_counterexample :
    (createObservationBody
        ⟨some "final", some [], some [Ext.mk "u" none none []],
          some "8867-4"⟩).extension
      ≠ some [Ext.mk "u" none none []] := by
  intro h
  have hl := congrArg (fun x => (Option.getD x []).length) h
  simp [createObservationBody] at hl

/-- C9 amended: the defaulting helpers set `status` and `category` only
when absent and leave them unchanged when present, leave non-targeted
fields unchanged (`Observation.code`; `DocumentReference.content` and
`status`), and Epic rejects missing or empty content before any transform —
but both helpers unconditionally append the vendor source extension, so the
`extension` field of the outbound body changes even when one was already
present, and in the source the transform is applied to the caller's object
in place rather than to a copy. -/
theorem createBody_defaulting (o : Observation) (d : DocumentReference) :
    (o.status.isSome → (createObservationBody o).status = o.status) ∧
    (o.status = none → (createObservationBody o).status = some "final") ∧
    (o.category.isSome → (createObservationBody o).category = o.category) ∧
    (o.category = none →
      (createObservationBody o).category = some defaultObservationCategory) ∧
    (createObservationBody o).code = o.code ∧
    (createObservationBody o).extension
      = some (o.extension.getD [] ++ [cernerSourceExt]) ∧
    (∀ dr, createDocumentBody d = Except.ok dr →
      dr.status = d.status ∧ dr.content = d.content ∧
      dr.extension = some (d.extension.getD [] ++ [epicDocumentSourceExt])) ∧
    ((d.content.getD []).isEmpty = true →
      createDocumentBody d = Except.error "Document content is required") := by
  obtain ⟨st, cat, ext, code⟩ := o
  refine ⟨?_, ?_, ?_, ?_, ?_, ?_, ?_, ?_⟩
  · intro h
    cases st <;> cases cat <;> simp_all [createObservationBody]
  · rintro rfl
    cases cat <;> simp [createObservationBody]
  · intro h
    cases st <;> cases cat <;> simp_all [createObservationBody]
  · rintro rfl
    cases st <;> simp [createObservationBody]
  · cases st <;> cases cat <;> simp [createObservationBody]
  · cases st <;> cases cat <;> simp [createObservationBody]
  · intro dr h
    unfold createDocumentBody at h
    by_cases hc : (d.content.getD []).isEmpty = true
    · rw [if_pos hc] at h
      cases h
    · rw [if_neg hc] at h
      cases h
      exact ⟨rfl, rfl, rfl⟩
  · intro hc
    unfold createDocumentBody
    rw [if_pos hc]

/-- Witness for the amended C9 at a concrete input: a document with content
keeps its content and status and gains exactly the Epic source extension. -/
theorem createBody_defaulting_witness :
    (⟨some ["data"], some [epicDocumentSourceExt], some "current"⟩
        : DocumentReference).status
      = (⟨some ["data"], none, some "current"⟩ : DocumentReference).status ∧
    (⟨some ["data"], some [epicDocumentSourceExt], some "current"⟩
        : DocumentReference).content
      = (⟨some ["data"], none, some "current"⟩ : DocumentReference).content ∧
    (⟨some ["data"], some [epicDocumentSourceExt], some "current"⟩
        : DocumentReference).extension
      = some ((⟨some ["data"], none, some "current"⟩
          : DocumentReference).extension.getD [] ++ [epicDocumentSourceExt]) :=
  (createBody_defaulting ⟨none, none, none, none⟩
      ⟨some ["data"], none, some "current"⟩).2.2.2.2.2.2.1
    ⟨some ["data"], some [epicDocumentSourceExt], some "current"⟩ rfl

/-- In a capability list whose resource types are pairwise distinct, two
entries with the same type coincide. -/
theorem capability_type_unique {l : List Capability}
    (hdist : l.Pairwise (fun a b => a.type ≠ b.type)) :
    ∀ a ∈ l, ∀ b ∈ l, a.type = b.type → a = b := by
  induction l with
  | nil => intro a ha; cases ha
  | cons x xs ih =>
    obtain ⟨hx, hxs⟩ := List.pairwise_cons.mp hdist
    intro a ha b hb heq
    rcases List.mem_cons.mp ha with rfl | ha'
    · rcases List.mem_cons.mp hb with rfl | hb'
      · rfl
      · exact absurd heq (hx b hb')
    · rcases List.mem_cons.mp hb with rfl | hb'
      · exact absurd heq.symm (hx a ha')
      · exact ih hxs a ha' b hb' heq

/-- C10: before the Epic capability statement is loaded the capability list
is empty and `isSupported` returns true for every resource type and
operation — so `getPatientData` never rejects a resource type as
unsupported then; once loaded (one entry per conformance resource, types
pairwise distinct), `isSupported` is true exactly when the list has an
entry of that type whose interactions contain the operation. -/
theorem isSupported_spec (caps : List Capability) (rt op : String)
    (hdist : caps.Pairwise (fun a b => a.type ≠ b.type)) :
    (caps = [] →
      isSupported caps rt op = true ∧ getPatientDataRejects caps rt = false) ∧
    (caps ≠ [] → (isSupported caps rt op = true ↔
      ∃ c ∈ caps, c.type = rt ∧ op ∈ c.interactions)) := by
  constructor
  · rintro rfl
    exact ⟨rfl, rfl⟩
  · intro hne
    unfold isSupported
    rw [if_neg (by simpa [List.isEmpty_iff] using hne)]
    cases hfind : caps.find? (fun r => r.type == rt) with
    | none =>
      constructor
      · intro h
        cases h
      · rintro ⟨c, hc, hct, hop⟩
        have := List.find?_eq_none.mp hfind c hc
        simp [hct] at this
    | some r =>
      have hr : r.type = rt := by
        have := List.find?_some hfind
        simpa using this
      have hmem := List.mem_of_find?_eq_some hfind
      constructor
      · intro h
        exact ⟨r, hmem, hr, by simpa using h⟩
      · rintro ⟨c, hc, hct, hop⟩
        have hcr : c = r :=
          capability_type_unique hdist c hc r hmem (hct.trans hr.symm)
        subst hcr
        simpa using hop

/-- Witness for C10 at a concrete loaded capability list. -/
theorem isSupported_spec_witness :
    isSupported [⟨"Patient", ["read", "search-type"]⟩,
        ⟨"Observation", ["read"]⟩] "Patient" "search-type" = true := by
  have h := (isSupported_spec [⟨"Patient", ["read", "search-type"]⟩,
      ⟨"Observation", ["read"]⟩] "Patient" "search-type" (by decide)).2
    (by decide)
  exact h.mpr ⟨⟨"Patient", ["read", "search-type"]⟩, by decide, rfl, by decide⟩

end Ehr
